import Mathlib

/-!
Verification of `tf2onnx/function/select.py`: the rewrite of a TensorFlow
`Select` operator into an ONNX `Loop`-with-`If` construct.

The data model (`Name`, `NodeP`, `GraphP`, `AttrV`, `ValueInfoP`) shallowly
embeds the ONNX protobuf objects the Python code assembles with
`onnx.helper`.  Each Python function of the source file becomes a Lean
definition of the same name (`select_op8`, `create_loop_op`,
`get_hidden_size_best_effort`, `create_loop_body_graph`, `create_if_op`,
`create_body_graph_for_if_branch`).  The graph context and the
name-generation service, which live outside the reviewed file, are
modelled from the specification.  An evaluator for the emitted primitive
operators, also modelled from the specification of the target IR's
constructs, lets us state and prove the row-correctness property.
-/

/-- Names in the program being built.  The source manipulates plain strings;
we keep the three provenances apart structurally: pre-existing names of the
surrounding graph (`raw`), names minted by the name factory (`fresh`, the
counter is the factory's state), and output-port names derived from a node
name (`port`).  Modelled from the spec: the Node/Name Factory guarantees a
fresh name never collides with a pre-existing or other generated name. -/
inductive Name where
  | raw (s : String)
  | fresh (pfx : String) (counter : Nat)
  | port (base : Name) (idx : Nat)
deriving DecidableEq, Repr

/-- Modelled from the spec: `freshName(prefix) -> unique string` of the
Node/Name Factory (`tf2onnx.utils.make_name`, not part of the reviewed
file).  The registry state is a counter, bumped on every call. -/
def make_name (pfx : String) (st : Nat) : Name × Nat :=
  (Name.fresh pfx st, st + 1)

/-- Modelled from the spec: `outputPort(name, index=0)` of the Node/Name
Factory (`tf2onnx.utils.port_name`), deterministically derived from a node
name and an output slot. -/
def port_name (n : Name) (idx : Nat := 0) : Name :=
  Name.port n idx

/-- Element-type codes of `onnx.TensorProto` used by the source. -/
def TensorProtoFLOAT : Nat := 1

/-- Element-type code of `onnx.TensorProto.INT64`. -/
def TensorProtoINT64 : Nat := 7

/-- Element-type code of `onnx.TensorProto.BOOL`. -/
def TensorProtoBOOL : Nat := 9

/-- `onnx.helper.make_tensor_value_info`: a declared value signature
(name, element type, shape).  Dimensions are integers as in the source's
shape lists. -/
structure ValueInfoP where
  vname : Name
  dtype : Nat
  shape : List Int
deriving DecidableEq, Repr

mutual
/-- Attribute values attached to a node: the constant tensors, integer
lists and nested graphs the source uses (`value=`, `axes=`, `body=`,
`then_branch=`, `else_branch=`). -/
inductive AttrV where
  | tensorBool (nm : Name) (b : Bool)
  | tensorFloat0 (nm : Name)
  | ints (xs : List Int)
  | graph (g : GraphP)

/-- `onnx.helper.make_node`: an operation record with operator kind,
ordered input references, ordered output names, a node name, and named
attributes. -/
inductive NodeP where
  | mk (op : String) (inputs : List Name) (outputs : List Name)
       (name : Name) (attrs : List (String × AttrV))

/-- `onnx.helper.make_graph`: an ordered node list plus declared input and
output signatures. -/
inductive GraphP where
  | mk (nodes : List NodeP) (gname : String)
       (ginputs : List ValueInfoP) (goutputs : List ValueInfoP)
end

/-- The operator kind of a node. -/
def NodeP.op : NodeP → String
  | .mk o _ _ _ _ => o

/-- The ordered input references of a node. -/
def NodeP.inputs : NodeP → List Name
  | .mk _ i _ _ _ => i

/-- The ordered output names of a node. -/
def NodeP.outputs : NodeP → List Name
  | .mk _ _ o _ _ => o

/-- The unique name of a node. -/
def NodeP.name : NodeP → Name
  | .mk _ _ _ n _ => n

/-- The attribute list of a node. -/
def NodeP.attrs : NodeP → List (String × AttrV)
  | .mk _ _ _ _ a => a

/-- The node list of a graph. -/
def GraphP.nodes : GraphP → List NodeP
  | .mk ns _ _ _ => ns

/-- The graph's name. -/
def GraphP.gname : GraphP → String
  | .mk _ n _ _ => n

/-- The declared input signatures of a graph. -/
def GraphP.ginputs : GraphP → List ValueInfoP
  | .mk _ _ i _ => i

/-- The declared output signatures of a graph. -/
def GraphP.goutputs : GraphP → List ValueInfoP
  | .mk _ _ _ o => o

/-- Look up a node attribute by key. -/
def NodeP.attr (n : NodeP) (key : String) : Option AttrV :=
  (n.attrs.find? (fun p => p.1 == key)).map (·.2)

/-- Modelled from the spec: the Context collaborator (§6) providing, per
named value, its best-known element type and shape, with
`setOutputShape`/`setOutputType` writing inferred metadata back.  The
source's `ctx.get_dtype`, `ctx.get_shape`, `ctx.set_dtype`,
`ctx.copy_shape` (from `tf2onnx.graph`, not part of the reviewed file). -/
structure Ctx where
  get_dtype : Name → Nat
  get_shape : Name → Option (List Int)

/-- Modelled from the spec: `setOutputType` — record an element type for a
name. -/
def Ctx.set_dtype (c : Ctx) (n : Name) (t : Nat) : Ctx :=
  { c with get_dtype := fun m => if m = n then t else c.get_dtype m }

/-- Modelled from the spec: `setOutputShape` — record a shape for a name. -/
def Ctx.set_shape (c : Ctx) (n : Name) (s : List Int) : Ctx :=
  { c with get_shape := fun m => if m = n then some s else c.get_shape m }

/-- Modelled from the spec: `ctx.copy_shape(src, dst)` copies the declared
shape of its first argument onto its second, when the first has one
(composition of `getShape` and `setOutputShape` from §6). -/
def Ctx.copy_shape (c : Ctx) (src dst : Name) : Ctx :=
  match c.get_shape src with
  | some s => c.set_shape dst s
  | none => c

/-- The error taxonomy of the spec (§7) plus the out-of-range error Python
itself raises on a missing positional input (`IndexError`, distinct from
the `ValueError`s the source raises deliberately). -/
inductive Err where
  | unsupportedArity
  | shapeUnavailable
  | indexError
deriving DecidableEq, Repr

/-- Fetch a positional input of a node the way Python's `node.input[i]`
does, raising `IndexError` when it is absent. -/
def NodeP.inputAt (n : NodeP) (i : Nat) : Except Err Name :=
  match n.inputs.get? i with
  | some x => .ok x
  | none => .error .indexError

/-- Fetch a positional output of a node (`node.output[i]`). -/
def NodeP.outputAt (n : NodeP) (i : Nat) : Except Err Name :=
  match n.outputs.get? i with
  | some x => .ok x
  | none => .error .indexError

/-- `node.set_attr(key, value)`: attach an attribute to an already built
node (used for the loop body). -/
def NodeP.set_attr (n : NodeP) (key : String) (v : AttrV) : NodeP :=
  .mk n.op n.inputs n.outputs n.name (n.attrs ++ [(key, v)])

/-- `get_hidden_size_best_effort(ctx, node)`: the shape of the true operand
(`node.input[1]`) when known, else the shape of the false operand
(`node.input[2]`), else the `ShapeUnavailable` error ("data shape not
found, so cannot create subgraph"). -/
def get_hidden_size_best_effort (ctx : Ctx) (node : NodeP) :
    Except Err (List Int) :=
  match node.inputAt 1 with
  | .error e => .error e
  | .ok in1 =>
    match ctx.get_shape in1 with
    | some data_shape => .ok data_shape
    | none =>
      match node.inputAt 2 with
      | .error e => .error e
      | .ok in2 =>
        match ctx.get_shape in2 with
        | some data_shape => .ok data_shape
        | none => .error .shapeUnavailable

/-- `create_body_graph_for_if_branch(ctx, input_id, data_shape)`: the
zero-input, single-output branch subgraph — gather the operand's row at
the ambient index `i`, squeeze away the leading axis, expose it as `y`
with shape `data_shape[1:]`.  Threads the name-factory counter. -/
def create_body_graph_for_if_branch (ctx : Ctx) (input_id : Name)
    (data_shape : List Int) (st : Nat) : GraphP × Nat :=
  let data_type := ctx.get_dtype input_id
  let (op_name, st) := make_name "Gather" st
  let true_out_name := port_name op_name
  let true_gather_node :=
    NodeP.mk "Gather" [input_id, Name.raw "i"] [true_out_name] op_name []
  let (op_name2, st) := make_name "Squeeze" st
  let true_squeeze_out_name := port_name op_name2
  let cur_true_val_scalar_node :=
    NodeP.mk "Squeeze" [true_out_name] [true_squeeze_out_name] op_name2
      [("axes", AttrV.ints [0])]
  let (id_name, st) := make_name "Identity" st
  let identity_node :=
    NodeP.mk "Identity" [true_squeeze_out_name] [Name.raw "y"] id_name []
  let y := ValueInfoP.mk (Name.raw "y") data_type (data_shape.drop 1)
  (GraphP.mk [true_gather_node, cur_true_val_scalar_node, identity_node]
    "if-body-graph" [] [y], st)

/-- `create_if_op(ctx, node, cur_cond_val_out_name)`: resolve the shared
output shape, build the two branch subgraphs for `node.input[1]` and
`node.input[2]`, and assemble the `If` node carrying them as
`then_branch`/`else_branch`.  Returns the node and its output name. -/
def create_if_op (ctx : Ctx) (node : NodeP) (cur_cond_val_out_name : Name)
    (st : Nat) : Except Err ((NodeP × Name) × Nat) :=
  match get_hidden_size_best_effort ctx node with
  | .error e => .error e
  | .ok data_shape =>
    match node.inputAt 1 with
    | .error e => .error e
    | .ok in1 =>
      let (true_graph, st) := create_body_graph_for_if_branch ctx in1 data_shape st
      match node.inputAt 2 with
      | .error e => .error e
      | .ok in2 =>
        let (false_graph, st) := create_body_graph_for_if_branch ctx in2 data_shape st
        let (op_name, st) := make_name "If" st
        let out_name := port_name op_name
        let if_node :=
          NodeP.mk "If" [cur_cond_val_out_name] [out_name] op_name
            [("then_branch", AttrV.graph true_graph),
             ("else_branch", AttrV.graph false_graph)]
        .ok ((if_node, out_name), st)

/-- `create_loop_body_graph(ctx, node, select_condition_input_id,
select_output_data_type)`: the loop body — formal inputs `i`/`cond`/
`fake_var`, gather+squeeze of the i-th condition value, the `If` node,
and the three pass-through `Identity` outputs, with declared outputs
`cond_output`, `fake_var_output`, `output`. -/
def create_loop_body_graph (ctx : Ctx) (node : NodeP)
    (select_condition_input_id : Name) (select_output_data_type : Nat)
    (st : Nat) : Except Err (GraphP × Nat) :=
  let graph_inputs :=
    [ValueInfoP.mk (Name.raw "i") TensorProtoINT64 [1],
     ValueInfoP.mk (Name.raw "cond") TensorProtoBOOL [],
     ValueInfoP.mk (Name.raw "fake_var") TensorProtoFLOAT []]
  let (op_name, st) := make_name "Gather" st
  let cond_gather_out_name := port_name op_name
  let cond_gather_node :=
    NodeP.mk "Gather" [select_condition_input_id, Name.raw "i"]
      [cond_gather_out_name] op_name []
  let (op_name2, st) := make_name "Squeeze" st
  let cur_cond_val_out_name := port_name op_name2
  let cur_cond_val_scalar_node :=
    NodeP.mk "Squeeze" [cond_gather_out_name] [cur_cond_val_out_name]
      op_name2 [("axes", AttrV.ints [0])]
  match create_if_op ctx node cur_cond_val_out_name st with
  | .error e => .error e
  | .ok ((if_node, if_node_output_id), st) =>
    let (id_name1, st) := make_name "Identity" st
    let identity_node1 :=
      NodeP.mk "Identity" [if_node_output_id] [Name.raw "output"] id_name1 []
    let (id_name2, st) := make_name "Identity" st
    let identity_node2 :=
      NodeP.mk "Identity" [Name.raw "cond"] [Name.raw "cond_output"] id_name2 []
    let (id_name3, st) := make_name "Identity" st
    let identity_node3 :=
      NodeP.mk "Identity" [Name.raw "fake_var"] [Name.raw "fake_var_output"]
        id_name3 []
    match get_hidden_size_best_effort ctx node with
    | .error e => .error e
    | .ok output_shape =>
      let graph_outputs :=
        [ValueInfoP.mk (Name.raw "cond_output") TensorProtoBOOL [],
         ValueInfoP.mk (Name.raw "fake_var_output") TensorProtoFLOAT [],
         ValueInfoP.mk (Name.raw "output") select_output_data_type
           (output_shape.drop 1)]
      .ok (GraphP.mk
        [cond_gather_node, cur_cond_val_scalar_node, if_node,
         identity_node1, identity_node2, identity_node3]
        "loop-body-graph" graph_inputs graph_outputs, st)

/-- `create_loop_op(ctx, node, batch_val_input_id, data_type)`: the
constant `true` continuation flag, the constant float placeholder, the
`Unsqueeze` producing the 1-D trip count, and the `Loop` node with the
body graph attached. -/
def create_loop_op (ctx : Ctx) (node : NodeP) (batch_val_input_id : Name)
    (data_type : Nat) (st : Nat) : Except Err (List NodeP × Nat) :=
  let (cond_var_name, st) := make_name "condition" st
  let init_cond :=
    NodeP.mk "Constant" [] [cond_var_name] cond_var_name
      [("value", AttrV.tensorBool cond_var_name true)]
  let (fake_val_name, st) := make_name "fake_var" st
  let fake_var_init_node :=
    NodeP.mk "Constant" [] [fake_val_name] fake_val_name
      [("value", AttrV.tensorFloat0 fake_val_name)]
  let (trip_cnt_name, st) := make_name "loop_gather_indices" st
  let trip_cnt_output_id := port_name trip_cnt_name
  let trip_cnt_cond :=
    NodeP.mk "Unsqueeze" [batch_val_input_id] [trip_cnt_output_id]
      trip_cnt_name [("axes", AttrV.ints [0])]
  let (op_name, st) := make_name "loop" st
  let out_name := port_name op_name
  let loop_inputs := [trip_cnt_output_id, cond_var_name, fake_val_name]
  let loop_scan_output_id := port_name op_name 1
  let loop_node0 :=
    NodeP.mk "Loop" loop_inputs [out_name, loop_scan_output_id] op_name []
  match node.inputAt 0 with
  | .error e => .error e
  | .ok in0 =>
    match create_loop_body_graph ctx node in0 data_type st with
    | .error e => .error e
    | .ok (loop_body, st) =>
      let loop_node := loop_node0.set_attr "body" (AttrV.graph loop_body)
      .ok ([init_cond, fake_var_init_node, trip_cnt_cond, loop_node], st)

/-- `select_op8(ctx, node, name, args)`: the top-level rewrite driver —
arity guard, the `Size` node measuring the row count, the iteration
construct, metadata propagation, and the final `Identity` renaming the
scan output to the original operator's declared output. -/
def select_op8 (ctx : Ctx) (node : NodeP) (st : Nat) :
    Except Err (List NodeP × Ctx × Nat) :=
  if node.inputs.length == 1 then .error .unsupportedArity
  else
    match node.inputAt 1 with
    | .error e => .error e
    | .ok in1 =>
      let data_type := ctx.get_dtype in1
      let (op_name, st) := make_name "Size" st
      let out_name := port_name op_name
      match node.inputAt 0 with
      | .error e => .error e
      | .ok in0 =>
        let batch_size_node := NodeP.mk "Size" [in0] [out_name] op_name []
        match batch_size_node.outputAt 0 with
        | .error e => .error e
        | .ok batch_out =>
          match create_loop_op ctx node batch_out data_type st with
          | .error e => .error e
          | .ok (nodes_to_append, st) =>
            let nodes := batch_size_node :: nodes_to_append
            match nodes.getLast? with
            | none => .error .indexError
            | some last_node =>
              match last_node.outputAt 1 with
              | .error e => .error e
              | .ok loop_scan_output_id =>
                match node.outputAt 0 with
                | .error e => .error e
                | .ok out0 =>
                  let ctx := ctx.copy_shape out0 loop_scan_output_id
                  let ctx := ctx.set_dtype out0 data_type
                  let op_name2 := node.name
                  let out_name2 := port_name op_name2
                  let output_node :=
                    NodeP.mk "Identity" [loop_scan_output_id] [out_name2]
                      op_name2 []
                  .ok (nodes ++ [output_node], ctx, st)

/-- Runtime values flowing through the emitted construct, over an abstract
row type `α`: boolean/integer scalars, the float placeholder, 1-D boolean
and integer vectors, a batched tensor as a list of rows, and a single row
(the result of squeezing a gathered slice). -/
inductive Val (α : Type) where
  | b (x : Bool)
  | i (x : Int)
  | f0
  | bv (xs : List Bool)
  | iv (xs : List Int)
  | rows (xs : List α)
  | row (x : α)
deriving DecidableEq, Repr

/-- A runtime environment: the values bound to names, across all enclosing
scopes (lexical capture is evaluation in the ambient environment). -/
def Env (α : Type) : Type := Name → Option (Val α)

/-- Bind a name in an environment. -/
def Env.set (e : Env α) (n : Name) (v : Val α) : Env α :=
  fun m => if m = n then some v else e m

/-- Stack the per-iteration scan values into the accumulated sequence: each
contribution must be a single row, and the result is the batched tensor of
those rows in iteration order. -/
def scanRowOf : Val α → Option α
  | .row x => some x
  | _ => none

/-- Stack a list of scan contributions. -/
def stackScan (vs : List (Val α)) : Option (Val α) :=
  (vs.mapM scanRowOf).map Val.rows

/-- Modelled from the spec: the iteration construct's execution — run the
body subgraph up to `rem` more times starting at iteration index `k`,
binding the body's declared formal inputs to the index, the continuation
flag and the carried value over the ambient environment (lexical
capture), reading back its three declared outputs (flag, carried, scan),
and stopping early only if the flag goes false.  `rec` evaluates the body
subgraph. -/
def runLoopWith (rec : GraphP → Env α → Option (Env α)) (body : GraphP)
    (env : Env α) (k : Nat) (rem : Nat) (condFlag : Bool) (carried : Val α)
    (acc : List (Val α)) : Option (Val α × List (Val α)) :=
  match rem with
  | 0 => some (carried, acc)
  | rem' + 1 =>
    if condFlag then
      match body.ginputs with
      | [vi_i, vi_c, vi_v] =>
        let envIter :=
          ((env.set vi_i.vname (.iv [(k : Int)])).set vi_c.vname
            (.b condFlag)).set vi_v.vname carried
        match rec body envIter with
        | some e2 =>
          match body.goutputs with
          | [vc, vcar, vscan] =>
            match e2 vc.vname, e2 vcar.vname, e2 vscan.vname with
            | some (.b c2), some car2, some sv =>
              runLoopWith rec body env (k + 1) rem' c2 car2 (acc ++ [sv])
            | _, _, _ => none
          | _ => none
        | none => none
      | _ => none
    else some (carried, acc)

/-- Modelled from the spec: one step of the target IR's operational
semantics — evaluate a single primitive node in an environment, binding
its outputs.  `Size` counts a vector's elements; `Unsqueeze`/`Squeeze`
with `axes=[0]` add/remove a leading singleton axis; `Gather` picks the
row at a 1-D index; `If` runs exactly one of its two branch subgraphs in
the ambient environment (lexical capture) and re-binds that branch's
single declared output; `Loop` runs its body subgraph trip-count many
times via `runLoopWith`, stacking the scan outputs.  `rec` evaluates a
nested subgraph. -/
def evalNodeWith (rec : GraphP → Env α → Option (Env α)) (env : Env α)
    (n : NodeP) : Option (Env α) :=
  match n.op, n.inputs, n.outputs with
  | "Constant", [], [o] =>
    match n.attr "value" with
    | some (.tensorBool _ bv) => some (env.set o (.b bv))
    | some (.tensorFloat0 _) => some (env.set o .f0)
    | _ => none
  | "Size", [a], [o] =>
    match env a with
    | some (.bv xs) => some (env.set o (.i xs.length))
    | some (.iv xs) => some (env.set o (.i xs.length))
    | _ => none
  | "Unsqueeze", [a], [o] =>
    match n.attr "axes", env a with
    | some (.ints [0]), some (.i x) => some (env.set o (.iv [x]))
    | some (.ints [0]), some (.b x) => some (env.set o (.bv [x]))
    | _, _ => none
  | "Gather", [d, ix], [o] =>
    match env ix with
    | some (.iv [j]) =>
      if j < 0 then none
      else
        match env d with
        | some (.bv xs) =>
          (xs.get? j.toNat).map (fun x => env.set o (.bv [x]))
        | some (.iv xs) =>
          (xs.get? j.toNat).map (fun x => env.set o (.iv [x]))
        | some (.rows xs) =>
          (xs.get? j.toNat).map (fun x => env.set o (.rows [x]))
        | _ => none
    | _ => none
  | "Squeeze", [a], [o] =>
    match n.attr "axes", env a with
    | some (.ints [0]), some (.bv [x]) => some (env.set o (.b x))
    | some (.ints [0]), some (.iv [x]) => some (env.set o (.i x))
    | some (.ints [0]), some (.rows [x]) => some (env.set o (.row x))
    | _, _ => none
  | "Identity", [a], [o] =>
    match env a with
    | some v => some (env.set o v)
    | none => none
  | "If", [p], [o] =>
    match env p, n.attr "then_branch", n.attr "else_branch" with
    | some (.b c), some (.graph tg), some (.graph eg) =>
      let g := if c then tg else eg
      match rec g env with
      | some e2 =>
        match g.goutputs with
        | [vi] =>
          match e2 vi.vname with
          | some v => some (env.set o v)
          | none => none
        | _ => none
      | none => none
    | _, _, _ => none
  | "Loop", [trip, cond0, carried0], [oFinal, oScan] =>
    match n.attr "body", env trip, env cond0, env carried0 with
    | some (.graph body), some (.iv [m]), some (.b c0), some v0 =>
      if m < 0 then none
      else
        match runLoopWith rec body env 0 m.toNat c0 v0 [] with
        | some (vfin, scan) =>
          match stackScan scan with
          | some sv => some ((env.set oFinal vfin).set oScan sv)
          | none => none
        | none => none
    | _, _, _, _ => none
  | _, _, _ => none

/-- Evaluate a node list in order, threading the environment. -/
def evalNodesWith (rec : GraphP → Env α → Option (Env α)) (env : Env α) :
    List NodeP → Option (Env α)
  | [] => some env
  | n :: rest =>
    match evalNodeWith rec env n with
    | some e2 => evalNodesWith rec e2 rest
    | none => none

/-- Evaluate a graph: its node list, with nested subgraphs evaluated at
one less unit of `fuel` (which therefore only has to cover the static
nesting depth, not the iteration count). -/
def evalGraphFuel : Nat → GraphP → Env α → Option (Env α)
  | 0, _, _ => none
  | f + 1, g, env => evalNodesWith (evalGraphFuel f) env g.nodes

/-- Evaluate one node with nesting budget `fuel`. -/
def evalNode (fuel : Nat) (env : Env α) (n : NodeP) : Option (Env α) :=
  evalNodeWith (evalGraphFuel fuel) env n

/-- Evaluate a node list with nesting budget `fuel`. -/
def evalNodes (fuel : Nat) (env : Env α) (ns : List NodeP) : Option (Env α) :=
  evalNodesWith (evalGraphFuel fuel) env ns

mutual
/-- All node names of a node, those of nodes nested in its attribute
subgraphs included. -/
def nodeNodeNames : NodeP → List Name
  | .mk _ _ _ nm ats => nm :: attrsNodeNames ats

/-- Node names found in an attribute list's nested subgraphs. -/
def attrsNodeNames : List (String × AttrV) → List Name
  | [] => []
  | (_, a) :: rest => attrNodeNames a ++ attrsNodeNames rest

/-- Node names found inside one attribute value. -/
def attrNodeNames : AttrV → List Name
  | .graph g => graphNodeNames g
  | _ => []

/-- Node names of a graph, nested subgraphs included. -/
def graphNodeNames : GraphP → List Name
  | .mk ns _ _ _ => nodesNodeNames ns

/-- Node names of a node list, nested subgraphs included. -/
def nodesNodeNames : List NodeP → List Name
  | [] => []
  | n :: rest => nodeNodeNames n ++ nodesNodeNames rest
end

mutual
/-- All produced output names of a node, those of nodes nested in its
attribute subgraphs included. -/
def nodeOutNames : NodeP → List Name
  | .mk _ _ outs _ ats => outs ++ attrsOutNames ats

/-- Produced output names found in an attribute list's nested subgraphs. -/
def attrsOutNames : List (String × AttrV) → List Name
  | [] => []
  | (_, a) :: rest => attrOutNames a ++ attrsOutNames rest

/-- Produced output names found inside one attribute value. -/
def attrOutNames : AttrV → List Name
  | .graph g => graphOutNames g
  | _ => []

/-- Produced output names of a graph, nested subgraphs included. -/
def graphOutNames : GraphP → List Name
  | .mk ns _ _ _ => nodesOutNames ns

/-- Produced output names of a node list, nested subgraphs included. -/
def nodesOutNames : List NodeP → List Name
  | [] => []
  | n :: rest => nodeOutNames n ++ nodesOutNames rest
end

/-- Whether a name is a fixed literal (pre-existing or subgraph-local)
rather than one produced by the name factory. -/
def Name.isRawName : Name → Bool
  | .raw _ => true
  | _ => false

/-- The specification's row-selection function: row `i` of the result is
row `i` of the true operand when `condition[i]` holds, else row `i` of the
false operand.  Written from the spec's words, to be compared with the
evaluation of the emitted construct. -/
def selectRowsSpec : List Bool → List α → List α → List α
  | c :: cs, x :: xs, y :: ys => (if c then x else y) :: selectRowsSpec cs xs ys
  | _, _, _ => []

/-- Looking up the just-bound name. -/
theorem Env.set_same (e : Env α) (n : Name) (v : Val α) :
    (e.set n v) n = some v := by
  simp [Env.set]

/-- Looking up a different name passes through a binding. -/
theorem Env.set_ne (e : Env α) {m n : Name} (v : Val α) (h : m ≠ n) :
    (e.set n v) m = e m := by
  simp [Env.set, h]

/-- Canonical rewrite setup: the original condition tensor's name. -/
def selCondName : Name := Name.raw "sel_cond"

/-- Canonical rewrite setup: the true operand's name. -/
def selXName : Name := Name.raw "sel_x"

/-- Canonical rewrite setup: the false operand's name. -/
def selYName : Name := Name.raw "sel_y"

/-- Canonical rewrite setup: the original Select operator's name. -/
def selName : Name := Name.raw "sel"

/-- Canonical rewrite setup: the Select node being rewritten, with its
three inputs and single declared output. -/
def selNode : NodeP :=
  NodeP.mk "Select" [selCondName, selXName, selYName] [port_name selName]
    selName []

/-- Canonical rewrite setup: a context knowing the true operand's shape. -/
def selCtx : Ctx :=
  ⟨fun _ => TensorProtoFLOAT, fun n => if n = selXName then some [3, 2] else none⟩

/-- Canonical runtime environment: the condition vector and the two
operands' row lists bound to their names. -/
def selEnv (cond : List Bool) (xs ys : List α) : Env α := fun n =>
  if n = selCondName then some (.bv cond)
  else if n = selXName then some (.rows xs)
  else if n = selYName then some (.rows ys)
  else none

/-- Run the canonical rewrite and evaluate the emitted nodes on runtime
inputs, reading back the value at the original operator's declared output
name. -/
def evalSelectRewrite (cond : List Bool) (xs ys : List α) : Option (Val α) :=
  match select_op8 selCtx selNode 0 with
  | .error _ => none
  | .ok (ns, _, _) =>
    match evalNodes 9 (selEnv cond xs ys) ns with
    | some e => e (port_name selName)
    | none => none

/-- The then-branch subgraph built by the canonical rewrite (counter 7-9):
gather the true operand's row at `i`, squeeze, expose as `y`. -/
def selThenGraph : GraphP := GraphP.mk [
    NodeP.mk "Gather" [Name.raw "sel_x", Name.raw "i"] [Name.port (Name.fresh "Gather" 7) 0] (Name.fresh "Gather" 7) [],
    NodeP.mk "Squeeze" [Name.port (Name.fresh "Gather" 7) 0] [Name.port (Name.fresh "Squeeze" 8) 0] (Name.fresh "Squeeze" 8) [("axes", AttrV.ints [0])],
    NodeP.mk "Identity" [Name.port (Name.fresh "Squeeze" 8) 0] [Name.raw "y"] (Name.fresh "Identity" 9) []]
  "if-body-graph" [] [ValueInfoP.mk (Name.raw "y") 1 [2]]

/-- The else-branch subgraph built by the canonical rewrite (counter 10-12). -/
def selElseGraph : GraphP := GraphP.mk [
    NodeP.mk "Gather" [Name.raw "sel_y", Name.raw "i"] [Name.port (Name.fresh "Gather" 10) 0] (Name.fresh "Gather" 10) [],
    NodeP.mk "Squeeze" [Name.port (Name.fresh "Gather" 10) 0] [Name.port (Name.fresh "Squeeze" 11) 0] (Name.fresh "Squeeze" 11) [("axes", AttrV.ints [0])],
    NodeP.mk "Identity" [Name.port (Name.fresh "Squeeze" 11) 0] [Name.raw "y"] (Name.fresh "Identity" 12) []]
  "if-body-graph" [] [ValueInfoP.mk (Name.raw "y") 1 [2]]

/-- The loop body graph built by the canonical rewrite (counters 5-16). -/
def selBodyGraph : GraphP := GraphP.mk [
    NodeP.mk "Gather" [Name.raw "sel_cond", Name.raw "i"] [Name.port (Name.fresh "Gather" 5) 0] (Name.fresh "Gather" 5) [],
    NodeP.mk "Squeeze" [Name.port (Name.fresh "Gather" 5) 0] [Name.port (Name.fresh "Squeeze" 6) 0] (Name.fresh "Squeeze" 6) [("axes", AttrV.ints [0])],
    NodeP.mk "If" [Name.port (Name.fresh "Squeeze" 6) 0] [Name.port (Name.fresh "If" 13) 0] (Name.fresh "If" 13)
      [("then_branch", AttrV.graph selThenGraph), ("else_branch", AttrV.graph selElseGraph)],
    NodeP.mk "Identity" [Name.port (Name.fresh "If" 13) 0] [Name.raw "output"] (Name.fresh "Identity" 14) [],
    NodeP.mk "Identity" [Name.raw "cond"] [Name.raw "cond_output"] (Name.fresh "Identity" 15) [],
    NodeP.mk "Identity" [Name.raw "fake_var"] [Name.raw "fake_var_output"] (Name.fresh "Identity" 16) []]
  "loop-body-graph"
  [ValueInfoP.mk (Name.raw "i") 7 [1], ValueInfoP.mk (Name.raw "cond") 9 [], ValueInfoP.mk (Name.raw "fake_var") 1 []]
  [ValueInfoP.mk (Name.raw "cond_output") 9 [], ValueInfoP.mk (Name.raw "fake_var_output") 1 [], ValueInfoP.mk (Name.raw "output") 1 [2]]

/-- Unfolding equation of the specification's selection function. -/
theorem selectRowsSpec_cons (c : Bool) (cs : List Bool) (x y : α) (xs ys : List α) :
    selectRowsSpec (c :: cs) (x :: xs) (y :: ys)
      = (if c then x else y) :: selectRowsSpec cs xs ys := rfl

/-- The specification's selection function on an empty condition. -/
theorem selectRowsSpec_nil (xs ys : List α) : selectRowsSpec [] xs ys = [] := rfl

set_option maxHeartbeats 1000000 in
/-- One iteration of the loop body: in an environment binding the runtime
inputs and the iteration formals, the body evaluates and its three
declared outputs read back as the re-emitted `true` flag, the carried
value unchanged, and the selected row at index `k`. -/
theorem selBody_eval {α : Type} (cond : List Bool) (xs ys : List α) (k f : Nat)
    (envI : Env α) (v : Val α)
    (hc : envI (Name.raw "sel_cond") = some (.bv cond))
    (hxe : envI (Name.raw "sel_x") = some (.rows xs))
    (hye : envI (Name.raw "sel_y") = some (.rows ys))
    (hi : envI (Name.raw "i") = some (.iv [(k : Int)]))
    (hcd : envI (Name.raw "cond") = some (.b true))
    (hfk : envI (Name.raw "fake_var") = some v)
    (hkc : k < cond.length) (hkx : k < xs.length) (hky : k < ys.length) :
    (evalGraphFuel (f + 2) selBodyGraph envI).map
        (fun e2 => (e2 (Name.raw "cond_output"), e2 (Name.raw "fake_var_output"),
          e2 (Name.raw "output")))
      = some (some (.b true), some v,
          some (.row (if cond[k] then xs[k] else ys[k]))) := by
  have hk0 : ¬((k : Int) < 0) := by omega
  have hgc : cond[k]? = some (cond[k]) := List.getElem?_eq_getElem hkc
  have hgx : xs[k]? = some (xs[k]) := List.getElem?_eq_getElem hkx
  have hgy : ys[k]? = some (ys[k]) := List.getElem?_eq_getElem hky
  rcases hck : cond[k] with _ | _ <;>
    simp [selBodyGraph, selThenGraph, selElseGraph, GraphP.nodes, GraphP.ginputs,
      GraphP.goutputs, evalGraphFuel, evalNodesWith, evalNodeWith, NodeP.op,
      NodeP.inputs, NodeP.outputs, NodeP.attr, NodeP.attrs, List.find?, Env.set,
      hc, hxe, hye, hi, hcd, hfk, hk0, hgc, hgx, hgy, hck]

set_option maxHeartbeats 1000000 in
/-- The iteration construct over the canonical body accumulates, from
iteration `k` on, exactly the selected rows of the remaining suffix. -/
theorem runLoop_selBody {α : Type} (cond : List Bool) (xs ys : List α)
    (hx : xs.length = cond.length) (hy : ys.length = cond.length) (f : Nat)
    (env : Env α)
    (hc : env (Name.raw "sel_cond") = some (.bv cond))
    (hxe : env (Name.raw "sel_x") = some (.rows xs))
    (hye : env (Name.raw "sel_y") = some (.rows ys)) :
    ∀ (rem k : Nat) (acc : List (Val α)) (v : Val α), k + rem = cond.length →
      runLoopWith (evalGraphFuel (f + 2)) selBodyGraph env k rem true v acc
        = some (v, acc ++ (selectRowsSpec (cond.drop k) (xs.drop k) (ys.drop k)).map Val.row) := by
  intro rem
  induction rem with
  | zero =>
    intro k acc v hk
    have hkN : k = cond.length := by omega
    subst hkN
    rw [runLoopWith]
    simp [selectRowsSpec_nil]
  | succ rem' ih =>
    intro k acc v hk
    have hkc : k < cond.length := by omega
    have hkx : k < xs.length := by omega
    have hky : k < ys.length := by omega
    have hdc : cond.drop k = cond[k] :: cond.drop (k + 1) := List.drop_eq_getElem_cons hkc
    have hdx : xs.drop k = xs[k] :: xs.drop (k + 1) := List.drop_eq_getElem_cons hkx
    have hdy : ys.drop k = ys[k] :: ys.drop (k + 1) := List.drop_eq_getElem_cons hky
    -- the iteration environment and its lookups
    set envI : Env α :=
      ((env.set (Name.raw "i") (.iv [(k : Int)])).set (Name.raw "cond")
        (.b true)).set (Name.raw "fake_var") v with hEnvI
    have l1 : envI (Name.raw "sel_cond") = some (.bv cond) := by
      simp [hEnvI, Env.set, hc]
    have l2 : envI (Name.raw "sel_x") = some (.rows xs) := by
      simp [hEnvI, Env.set, hxe]
    have l3 : envI (Name.raw "sel_y") = some (.rows ys) := by
      simp [hEnvI, Env.set, hye]
    have l4 : envI (Name.raw "i") = some (.iv [(k : Int)]) := by
      simp [hEnvI, Env.set]
    have l5 : envI (Name.raw "cond") = some (.b true) := by
      simp [hEnvI, Env.set]
    have l6 : envI (Name.raw "fake_var") = some v := by
      simp [hEnvI, Env.set]
    obtain ⟨e2, he2, hr⟩ := Option.map_eq_some'.mp
      (selBody_eval cond xs ys k f envI v l1 l2 l3 l4 l5 l6 hkc hkx hky)
    simp only [Prod.mk.injEq] at hr
    obtain ⟨hr1, hr2, hr3⟩ := hr
    have ih2 := ih (k + 1)
      (acc ++ [Val.row (if cond[k] then xs[k] else ys[k])]) v (by omega)
    have hgin : selBodyGraph.ginputs
        = [ValueInfoP.mk (Name.raw "i") 7 [1], ValueInfoP.mk (Name.raw "cond") 9 [],
           ValueInfoP.mk (Name.raw "fake_var") 1 []] := rfl
    have hgout : selBodyGraph.goutputs
        = [ValueInfoP.mk (Name.raw "cond_output") 9 [],
           ValueInfoP.mk (Name.raw "fake_var_output") 1 [],
           ValueInfoP.mk (Name.raw "output") 1 [2]] := rfl
    rw [runLoopWith]
    simp only [hgin, hgout, if_true]
    rw [← hEnvI, he2]
    simp only []
    rw [hr1, hr2, hr3]
    simp only []
    rw [ih2, hdc, hdx, hdy, selectRowsSpec_cons]
    simp [List.append_assoc]

/-- The full node list emitted by the canonical rewrite. -/
def selEmitted : List NodeP := [
  NodeP.mk "Size" [Name.raw "sel_cond"] [Name.port (Name.fresh "Size" 0) 0] (Name.fresh "Size" 0) [],
  NodeP.mk "Constant" [] [Name.fresh "condition" 1] (Name.fresh "condition" 1) [("value", AttrV.tensorBool (Name.fresh "condition" 1) true)],
  NodeP.mk "Constant" [] [Name.fresh "fake_var" 2] (Name.fresh "fake_var" 2) [("value", AttrV.tensorFloat0 (Name.fresh "fake_var" 2))],
  NodeP.mk "Unsqueeze" [Name.port (Name.fresh "Size" 0) 0] [Name.port (Name.fresh "loop_gather_indices" 3) 0] (Name.fresh "loop_gather_indices" 3) [("axes", AttrV.ints [0])],
  NodeP.mk "Loop" [Name.port (Name.fresh "loop_gather_indices" 3) 0, Name.fresh "condition" 1, Name.fresh "fake_var" 2] [Name.port (Name.fresh "loop" 4) 0, Name.port (Name.fresh "loop" 4) 1] (Name.fresh "loop" 4) [("body", AttrV.graph selBodyGraph)],
  NodeP.mk "Identity" [Name.port (Name.fresh "loop" 4) 1] [Name.port (Name.raw "sel") 0] (Name.raw "sel") []]

/-- The context state after the canonical rewrite. -/
def selCtxOut : Ctx :=
  (selCtx.copy_shape (port_name selName) (Name.port (Name.fresh "loop" 4) 1)).set_dtype
    (port_name selName) TensorProtoFLOAT

/-- The canonical rewrite succeeds and emits exactly `selEmitted`,
finishing with the name counter at 17. -/
theorem select_op8_canonical :
    select_op8 selCtx selNode 0 = .ok (selEmitted, selCtxOut, 17) := rfl

/-- Helper: traversing a list of rows with the scan extractor succeeds. -/
theorem mapM_loop_scanRowOf (l : List α) (acc : List α) :
    List.mapM.loop scanRowOf (l.map Val.row) acc = some (acc.reverse ++ l) := by
  induction l generalizing acc with
  | nil => simp [List.mapM.loop]
  | cons a l ih => simp [List.mapM.loop, scanRowOf, ih]

/-- Stacking a list of row contributions yields the batched tensor. -/
theorem stackScan_map_row (l : List α) :
    stackScan (l.map Val.row) = some (.rows l) := by
  simp [stackScan, List.mapM, mapM_loop_scanRowOf]

set_option maxHeartbeats 1000000 in
/-- C1: for every row count N and boolean condition vector of length N,
the construct emitted by the rewrite produces, for each i < N, output row
i equal to row i of the true operand when condition[i] holds and to row i
of the false operand otherwise — evaluation of the emitted nodes returns
exactly `selectRowsSpec cond xs ys`. -/
theorem select_rewrite_row_correct {α : Type} (cond : List Bool) (xs ys : List α)
    (hx : xs.length = cond.length) (hy : ys.length = cond.length) :
    evalSelectRewrite cond xs ys = some (.rows (selectRowsSpec cond xs ys)) := by
  rw [evalSelectRewrite, select_op8_canonical]
  have hneg : ¬((cond.length : Int) < 0) := by omega
  simp [selEmitted, evalNodes, evalNodesWith, evalNodeWith, NodeP.op,
    NodeP.inputs, NodeP.outputs, NodeP.attr, NodeP.attrs, List.find?,
    selEnv, Env.set, hneg, selCondName, selXName, selYName, selName, port_name]
  set E : Env α := (((((selEnv cond xs ys).set ((Name.fresh "Size" 0).port 0)
      (Val.i (cond.length : Int))).set (Name.fresh "condition" 1) (Val.b true)).set
      (Name.fresh "fake_var" 2) Val.f0).set
      ((Name.fresh "loop_gather_indices" 3).port 0)
      (Val.iv [(cond.length : Int)])) with hE
  have l1 : E (Name.raw "sel_cond") = some (Val.bv cond) := by
    simp [hE, selEnv, Env.set, selCondName, selXName, selYName]
  have l2 : E (Name.raw "sel_x") = some (Val.rows xs) := by
    simp [hE, selEnv, Env.set, selCondName, selXName, selYName]
  have l3 : E (Name.raw "sel_y") = some (Val.rows ys) := by
    simp [hE, selEnv, Env.set, selCondName, selXName, selYName]
  have hrun := runLoop_selBody cond xs ys hx hy 7 E l1 l2 l3 cond.length 0 []
    Val.f0 (by omega)
  simp only [Nat.reduceAdd, List.drop_zero, List.nil_append] at hrun
  rw [hrun]
  simp [stackScan_map_row, Env.set]

/-- C1 witness: the spec's scenario — N=3, condition [true,false,true],
true rows [1,2,3], false rows [9,8,7] give [1,8,3]. -/
theorem select_rewrite_row_correct_witness :
    evalSelectRewrite [true, false, true] ([1, 2, 3] : List Nat) [9, 8, 7]
      = some (.rows [1, 8, 3]) :=
  select_rewrite_row_correct [true, false, true] [1, 2, 3] [9, 8, 7] rfl rfl

/-- A Select node given only its condition input. -/
def selOneNode : NodeP := NodeP.mk "Select" [selCondName] [port_name selName] selName []

/-- A Select node given two inputs (condition and true operand only). -/
def selTwoNode : NodeP :=
  NodeP.mk "Select" [selCondName, selXName] [port_name selName] selName []

/-- C2 counterexample: a node with two inputs — fewer than the required
three — is not rejected with the arity error: the rewrite fails with an
index-out-of-range error instead, so the claim's quantification over all
sub-three arities is false. -/
theorem select_op8_two_inputs_not_arity_error :
    select_op8 selCtx selTwoNode 0 = .error .indexError ∧
      Err.indexError ≠ Err.unsupportedArity := ⟨rfl, by decide⟩

/-- C2 (amended): a node with exactly one input — the condition-only form
— always fails with the arity error, emitting nothing. -/
theorem select_op8_arity_guard (ctx : Ctx) (node : NodeP) (st : Nat)
    (h : node.inputs.length = 1) :
    select_op8 ctx node st = .error .unsupportedArity := by
  simp [select_op8, h]

/-- C2 witness: the concrete condition-only node is rejected with the
arity error. -/
theorem select_op8_arity_guard_witness :
    select_op8 selCtx selOneNode 0 = .error .unsupportedArity :=
  select_op8_arity_guard selCtx selOneNode 0 rfl

/-- C3: the shape resolver returns the true operand's shape when known;
otherwise the false operand's shape when known; otherwise it fails with
the shape-unavailable error. -/
theorem get_hidden_size_best_effort_policy (ctx : Ctx) (node : NodeP)
    (a b c : Name) (h : node.inputs = [a, b, c]) :
    (∀ s, ctx.get_shape b = some s →
      get_hidden_size_best_effort ctx node = .ok s) ∧
    (ctx.get_shape b = none →
      (∀ s, ctx.get_shape c = some s →
        get_hidden_size_best_effort ctx node = .ok s) ∧
      (ctx.get_shape c = none →
        get_hidden_size_best_effort ctx node = .error .shapeUnavailable)) := by
  refine ⟨fun s hs => ?_, fun hb => ⟨fun s hs => ?_, fun hc => ?_⟩⟩ <;>
    simp [get_hidden_size_best_effort, NodeP.inputAt, h, *]

/-- A context knowing only the false operand's shape (the fallback case). -/
def selFallbackCtx : Ctx :=
  ⟨fun _ => TensorProtoFLOAT, fun n => if n = selYName then some [4] else none⟩

/-- C3 witness: with the true operand's shape unknown and the false
operand's shape `[4]`, the resolver returns `[4]`. -/
theorem get_hidden_size_best_effort_policy_witness :
    get_hidden_size_best_effort selFallbackCtx selNode = .ok [4] :=
  ((get_hidden_size_best_effort_policy selFallbackCtx selNode selCondName
    selXName selYName rfl).2 (by simp [selFallbackCtx, selXName, selYName])).1
    [4] (by simp [selFallbackCtx])

/-- The two branch subgraphs' declared output signatures of an `If` node,
when both branch attributes are present. -/
def branchOutSigs (n : NodeP) : Option (List ValueInfoP × List ValueInfoP) :=
  match n.attr "then_branch", n.attr "else_branch" with
  | some (.graph tg), some (.graph eg) => some (tg.goutputs, eg.goutputs)
  | _, _ => none

/-- C5 counterexample: the body graph's first formal input `i` is declared
with shape `[1]` — a one-element vector — not as a scalar (the scalar shape
`[]` used for `cond` and `fake_var`), so the claim's "integer scalar" is
false as stated. -/
theorem loop_body_input_i_not_scalar :
    (create_loop_body_graph selCtx selNode selCondName TensorProtoFLOAT 5).map
        (fun r => r.1.ginputs.map ValueInfoP.shape)
      = .ok [[1], [], []] ∧ ([1] : List Int) ≠ [] := ⟨rfl, by decide⟩

set_option maxHeartbeats 1000000 in
/-- C5 (amended): the body graph declares exactly the formal inputs `i`
(INT64, declared with shape `[1]`, not scalar), `cond` (boolean scalar)
and `fake_var` (float scalar), and exactly three outputs in fixed order:
continuation flag, carried placeholder, scan value. -/
theorem create_loop_body_graph_signature (ctx : Ctx) (node : NodeP)
    (a b c cin : Name) (dt st : Nat) (ds : List Int)
    (h : node.inputs = [a, b, c]) (hs : ctx.get_shape b = some ds) :
    (create_loop_body_graph ctx node cin dt st).map
        (fun r => (r.1.ginputs, r.1.goutputs, r.2))
      = .ok ([ValueInfoP.mk (Name.raw "i") TensorProtoINT64 [1],
              ValueInfoP.mk (Name.raw "cond") TensorProtoBOOL [],
              ValueInfoP.mk (Name.raw "fake_var") TensorProtoFLOAT []],
             [ValueInfoP.mk (Name.raw "cond_output") TensorProtoBOOL [],
              ValueInfoP.mk (Name.raw "fake_var_output") TensorProtoFLOAT [],
              ValueInfoP.mk (Name.raw "output") dt (ds.drop 1)],
             st + 12) := by
  simp [create_loop_body_graph, create_if_op, create_body_graph_for_if_branch,
    get_hidden_size_best_effort, NodeP.inputAt, h, hs, make_name, port_name,
    GraphP.ginputs, GraphP.goutputs, Except.map]

/-- C5 witness: the canonical rewrite's body graph has exactly those
declared inputs and outputs. -/
theorem create_loop_body_graph_signature_witness :
    (create_loop_body_graph selCtx selNode selCondName TensorProtoFLOAT 5).map
        (fun r => (r.1.ginputs, r.1.goutputs, r.2))
      = .ok ([ValueInfoP.mk (Name.raw "i") TensorProtoINT64 [1],
              ValueInfoP.mk (Name.raw "cond") TensorProtoBOOL [],
              ValueInfoP.mk (Name.raw "fake_var") TensorProtoFLOAT []],
             [ValueInfoP.mk (Name.raw "cond_output") TensorProtoBOOL [],
              ValueInfoP.mk (Name.raw "fake_var_output") TensorProtoFLOAT [],
              ValueInfoP.mk (Name.raw "output") TensorProtoFLOAT [2]],
             17) :=
  create_loop_body_graph_signature selCtx selNode selCondName selXName
    selYName selCondName TensorProtoFLOAT 5 [3, 2] rfl rfl

/-- A context reporting different element types for the two operands and
different shapes (`[3,4]` for the true operand, `[3,5]` for the false),
which the rewrite accepts without complaint. -/
def selMismatchCtx : Ctx :=
  ⟨fun n => if n = selXName then 1 else if n = selYName then 7 else 11,
   fun n => if n = selXName then some [3, 4]
     else if n = selYName then some [3, 5] else none⟩

/-- C6 counterexample: on an accepted Select node whose operands carry
different declared element types, the two branch graphs' single outputs
have element types 1 and 7 — not identical, refuting the claim. -/
theorem create_if_op_branch_dtypes_differ :
    (create_if_op selMismatchCtx selNode (Name.raw "p") 0).map
        (fun r => (branchOutSigs r.1.1).map
          (fun p2 => (p2.1.map ValueInfoP.dtype, p2.2.map ValueInfoP.dtype)))
      = .ok (some ([1], [7])) ∧ (1 : Nat) ≠ 7 := ⟨rfl, by decide⟩

set_option maxHeartbeats 1000000 in
/-- C6 (amended): each branch graph declares exactly one output named `y`;
the two outputs always share the resolver's shape (leading dimension
stripped), and each is typed with its own operand's declared element
type — identical exactly when the operands' declared types agree. -/
theorem create_if_op_branch_outputs (ctx : Ctx) (node : NodeP)
    (a b c p : Name) (st : Nat) (ds : List Int)
    (h : node.inputs = [a, b, c]) (hs : ctx.get_shape b = some ds) :
    (create_if_op ctx node p st).map (fun r => branchOutSigs r.1.1)
      = .ok (some
          ([ValueInfoP.mk (Name.raw "y") (ctx.get_dtype b) (ds.drop 1)],
           [ValueInfoP.mk (Name.raw "y") (ctx.get_dtype c) (ds.drop 1)])) := by
  simp [create_if_op, create_body_graph_for_if_branch,
    get_hidden_size_best_effort, NodeP.inputAt, h, hs, make_name, port_name,
    branchOutSigs, NodeP.attr, NodeP.attrs, List.find?, GraphP.goutputs,
    Except.map]

/-- C6 witness: on the mismatching context the branch outputs are single,
share the shape `[4]`, and carry the operands' own types. -/
theorem create_if_op_branch_outputs_witness :
    (create_if_op selMismatchCtx selNode (Name.raw "p") 0).map
        (fun r => branchOutSigs r.1.1)
      = .ok (some ([ValueInfoP.mk (Name.raw "y") 1 [4]],
                   [ValueInfoP.mk (Name.raw "y") 7 [4]])) :=
  create_if_op_branch_outputs selMismatchCtx selNode selCondName selXName
    selYName (Name.raw "p") 0 [3, 4] rfl
    (by simp [selMismatchCtx, selXName, selYName])

/-- C7 counterexample: with operand shapes `[3,4]` (true) and `[3,5]`
(false), the false branch's output `y` is declared with shape `[4]` — the
resolver's (true operand's) shape stripped — not the operand's own
stripped shape `[5]`, refuting the claim. -/
theorem branch_graph_shape_not_operand_shape :
    (create_if_op selMismatchCtx selNode (Name.raw "p") 0).map
        (fun r => (branchOutSigs r.1.1).map
          (fun p2 => p2.2.map ValueInfoP.shape))
      = .ok (some [[4]]) ∧
    selMismatchCtx.get_shape selYName = some [3, 5] ∧
    ([4] : List Int) ≠ List.drop 1 [3, 5] := ⟨rfl, rfl, by decide⟩

set_option maxHeartbeats 1000000 in
/-- C7 (amended): the branch subgraph built for an operand is a
zero-input, single-output graph exposing under the fixed name `y`, with
the passed-in resolver shape stripped of its leading dimension (not in
general the operand's own shape), the operand's row gathered at the
ambient iteration index `i` with its singleton leading axis squeezed
away. -/
theorem create_body_graph_for_if_branch_spec (ctx : Ctx) (inm : String)
    (dsh : List Int) (st : Nat) :
    (create_body_graph_for_if_branch ctx (Name.raw inm) dsh st).2 = st + 3 ∧
    (create_body_graph_for_if_branch ctx (Name.raw inm) dsh st).1.ginputs = [] ∧
    (create_body_graph_for_if_branch ctx (Name.raw inm) dsh st).1.goutputs
      = [ValueInfoP.mk (Name.raw "y") (ctx.get_dtype (Name.raw inm))
          (dsh.drop 1)] ∧
    ∀ (α : Type) (rec : GraphP → Env α → Option (Env α)) (env : Env α)
      (xs : List α) (k : Nat),
      env (Name.raw inm) = some (.rows xs) →
      env (Name.raw "i") = some (.iv [(k : Int)]) →
      ∀ hk : k < xs.length,
      (evalNodesWith rec env
          (create_body_graph_for_if_branch ctx (Name.raw inm) dsh st).1.nodes).bind
          (fun e => e (Name.raw "y"))
        = some (.row (xs.get ⟨k, hk⟩)) := by
  refine ⟨rfl, rfl, rfl, ?_⟩
  intro α rec env xs k hx hi hk
  have hk0 : ¬((k : Int) < 0) := by omega
  have hget : xs[k]? = some (xs.get ⟨k, hk⟩) := List.getElem?_eq_getElem hk
  simp [create_body_graph_for_if_branch, make_name, port_name, GraphP.nodes,
    evalNodesWith, evalNodeWith, NodeP.op, NodeP.inputs, NodeP.outputs,
    NodeP.attr, NodeP.attrs, List.find?, Env.set, hx, hi, hget, hk0]

/-- C7 witness: the branch subgraph built for the false operand, evaluated
at iteration index 1 on rows `[5, 6]`, exposes row 6 under `y`. -/
theorem create_body_graph_for_if_branch_spec_witness :
    (evalNodesWith (fun _ _ => none)
        ((selEnv [true, false] ([7, 8] : List Nat) [5, 6]).set (Name.raw "i")
          (Val.iv [1]))
        (create_body_graph_for_if_branch selCtx (Name.raw "sel_y") [3, 2] 10).1.nodes).bind
        (fun e => e (Name.raw "y"))
      = some (.row 6) :=
  (create_body_graph_for_if_branch_spec selCtx "sel_y" [3, 2] 10).2.2.2
    Nat (fun _ _ => none) _ [5, 6] 1
    (by simp [selEnv, Env.set, selCondName, selXName, selYName])
    (by simp [Env.set]) (by decide)

/-- The body graph attached to a node's `body` attribute, when present. -/
def attrBodyGraph (n : NodeP) : Option GraphP :=
  match n.attr "body" with
  | some (.graph g) => some g
  | _ => none

set_option maxHeartbeats 1000000 in
/-- C4 (amended): after a successful rewrite the original output name
carries the element type inferred from the true operand, but its declared
shape is left exactly as it was before the rewrite; what the rewrite
copies is the original output's pre-existing declared shape onto the loop
scan output.  No `[N] + nonBatchShape` shape is computed or declared at
the top level. -/
theorem select_op8_metadata (ctx : Ctx) (node : NodeP) (st : Nat)
    (a b c : Name) (onm : String) (ds : List Int)
    (h : node.inputs = [a, b, c])
    (ho : node.outputs = [Name.port (Name.raw onm) 0])
    (hs : ctx.get_shape b = some ds) :
    (select_op8 ctx node st).map
        (fun r => r.2.1.get_dtype (Name.port (Name.raw onm) 0))
      = .ok (ctx.get_dtype b) ∧
    (select_op8 ctx node st).map
        (fun r => r.2.1.get_shape (Name.port (Name.raw onm) 0))
      = .ok (ctx.get_shape (Name.port (Name.raw onm) 0)) ∧
    (∀ s0, ctx.get_shape (Name.port (Name.raw onm) 0) = some s0 →
      (select_op8 ctx node st).map
          (fun r => r.2.1.get_shape (Name.port (Name.fresh "loop" (st + 4)) 1))
        = .ok (some s0)) ∧
    (select_op8 ctx node st).map (fun r => r.2.2) = .ok (st + 17) := by
  obtain ⟨nop, nins, nouts, nname, nattrs⟩ := node
  simp only [NodeP.inputs] at h
  simp only [NodeP.outputs] at ho
  subst h ho
  rcases hout : ctx.get_shape (Name.port (Name.raw onm) 0) with _ | s0 <;>
    refine ⟨?_, ?_, ?_, ?_⟩ <;>
    simp [select_op8, create_loop_op, create_loop_body_graph, create_if_op,
      create_body_graph_for_if_branch, get_hidden_size_best_effort,
      NodeP.inputAt, NodeP.outputAt, NodeP.set_attr, hs, hout,
      make_name, port_name, Except.map, Ctx.copy_shape, Ctx.set_dtype,
      Ctx.set_shape, NodeP.op, NodeP.inputs, NodeP.outputs, NodeP.name,
      NodeP.attrs]

set_option maxHeartbeats 2000000 in
/-- C8: the iteration construct builder emits a constant true continuation
flag, a constant scalar placeholder, a trip count obtained by reshaping
the condition tensor's element count (`Size` then `Unsqueeze` to 1-D), and
a `Loop` node with exactly those three inputs, exactly two declared
outputs, and the three-input/three-output body graph attached as its
nested scope. -/
theorem select_op8_loop_structure (ctx : Ctx) (node : NodeP) (st : Nat)
    (a b c o : Name) (ds : List Int)
    (h : node.inputs = [a, b, c]) (ho : node.outputs = [o])
    (hs : ctx.get_shape b = some ds) :
    (select_op8 ctx node st).map (fun r => r.1.map NodeP.op)
      = .ok ["Size", "Constant", "Constant", "Unsqueeze", "Loop", "Identity"] ∧
    (select_op8 ctx node st).map (fun r => (r.1.get? 0).map
        (fun n => (n.inputs, n.outputs)))
      = .ok (some ([a], [Name.port (Name.fresh "Size" st) 0])) ∧
    (select_op8 ctx node st).map (fun r => r.1.get? 1)
      = .ok (some (NodeP.mk "Constant" [] [Name.fresh "condition" (st + 1)]
          (Name.fresh "condition" (st + 1))
          [("value", AttrV.tensorBool (Name.fresh "condition" (st + 1)) true)])) ∧
    (select_op8 ctx node st).map (fun r => r.1.get? 2)
      = .ok (some (NodeP.mk "Constant" [] [Name.fresh "fake_var" (st + 2)]
          (Name.fresh "fake_var" (st + 2))
          [("value", AttrV.tensorFloat0 (Name.fresh "fake_var" (st + 2)))])) ∧
    (select_op8 ctx node st).map (fun r => r.1.get? 3)
      = .ok (some (NodeP.mk "Unsqueeze" [Name.port (Name.fresh "Size" st) 0]
          [Name.port (Name.fresh "loop_gather_indices" (st + 3)) 0]
          (Name.fresh "loop_gather_indices" (st + 3))
          [("axes", AttrV.ints [0])])) ∧
    (select_op8 ctx node st).map (fun r => (r.1.get? 4).map
        (fun n => (n.op, n.inputs, n.outputs)))
      = .ok (some ("Loop",
          [Name.port (Name.fresh "loop_gather_indices" (st + 3)) 0,
           Name.fresh "condition" (st + 1), Name.fresh "fake_var" (st + 2)],
          [Name.port (Name.fresh "loop" (st + 4)) 0,
           Name.port (Name.fresh "loop" (st + 4)) 1])) ∧
    (select_op8 ctx node st).map (fun r => ((r.1.get? 4).bind attrBodyGraph).map
        (fun g => (g.gname, g.ginputs.length, g.goutputs.length)))
      = .ok (some ("loop-body-graph", 3, 3)) := by
  obtain ⟨nop, nins, nouts, nname, nattrs⟩ := node
  simp only [NodeP.inputs] at h
  simp only [NodeP.outputs] at ho
  subst h ho
  refine ⟨?_, ?_, ?_, ?_, ?_, ?_, ?_⟩ <;>
    simp [select_op8, create_loop_op, create_loop_body_graph, create_if_op,
      create_body_graph_for_if_branch, get_hidden_size_best_effort,
      NodeP.inputAt, NodeP.outputAt, NodeP.set_attr, hs, attrBodyGraph,
      make_name, port_name, Except.map, NodeP.op, NodeP.inputs, NodeP.outputs,
      NodeP.name, NodeP.attrs, NodeP.attr, List.find?, GraphP.gname,
      GraphP.ginputs, GraphP.goutputs]

set_option maxHeartbeats 2000000 in
/-- C10: even when the shape resolver falls back to the false operand's
shape, the element type of the rewrite's final output and of the body's
scan output is taken from the true operand, while each branch subgraph's
single output is typed with its own operand's element type. -/
theorem select_op8_dtype_provenance (ctx : Ctx) (node : NodeP) (st : Nat)
    (a b c : Name) (onm : String) (ds : List Int)
    (h : node.inputs = [a, b, c])
    (ho : node.outputs = [Name.port (Name.raw onm) 0])
    (hb : ctx.get_shape b = none) (hc : ctx.get_shape c = some ds) :
    (select_op8 ctx node st).map
        (fun r => r.2.1.get_dtype (Name.port (Name.raw onm) 0))
      = .ok (ctx.get_dtype b) ∧
    (select_op8 ctx node st).map (fun r => ((r.1.get? 4).bind attrBodyGraph).map
        (fun g => g.goutputs.map ValueInfoP.dtype))
      = .ok (some [TensorProtoBOOL, TensorProtoFLOAT, ctx.get_dtype b]) ∧
    (select_op8 ctx node st).map
        (fun r => (((r.1.get? 4).bind attrBodyGraph).bind
          (fun g => g.nodes.get? 2)).bind
          (fun n => (branchOutSigs n).map
            (fun p2 => (p2.1.map ValueInfoP.dtype, p2.2.map ValueInfoP.dtype))))
      = .ok (some ([ctx.get_dtype b], [ctx.get_dtype c])) := by
  obtain ⟨nop, nins, nouts, nname, nattrs⟩ := node
  simp only [NodeP.inputs] at h
  simp only [NodeP.outputs] at ho
  subst h ho
  refine ⟨?_, ?_, ?_⟩ <;>
    simp [select_op8, create_loop_op, create_loop_body_graph, create_if_op,
      create_body_graph_for_if_branch, get_hidden_size_best_effort,
      NodeP.inputAt, NodeP.outputAt, NodeP.set_attr, hb, hc, attrBodyGraph,
      branchOutSigs, make_name, port_name, Except.map, Ctx.copy_shape,
      Ctx.set_dtype, Ctx.set_shape, NodeP.op, NodeP.inputs, NodeP.outputs,
      NodeP.name, NodeP.attrs, NodeP.attr, List.find?, GraphP.gname,
      GraphP.nodes, GraphP.ginputs, GraphP.goutputs]

/-- A context for the metadata claim: operand shape `[3,7]`, condition
shape `[3]`, and a pre-existing declared shape `[99,7]` on the original
output name. -/
def selC4Ctx : Ctx :=
  ⟨fun _ => 1, fun n =>
    if n = selXName then some [3, 7]
    else if n = selCondName then some [3]
    else if n = port_name selName then some [99, 7] else none⟩

/-- C4 counterexample: with condition row count 3 and non-batch shape
`[7]`, the claim demands declared output shape `[3, 7]`; after the
rewrite the original output's declared shape is its pre-existing
`[99, 7]`, not `[3, 7]`. -/
theorem select_op8_shape_not_propagated :
    (select_op8 selC4Ctx selNode 0).map
        (fun r => r.2.1.get_shape (port_name selName))
      = .ok (some [99, 7]) ∧
    some ([99, 7] : List Int) ≠ some [3, 7] := ⟨rfl, by decide⟩

/-- C4 witness: on the concrete context the output name's element type is
set to the true operand's type and the scan output receives the original
output's pre-existing shape. -/
theorem select_op8_metadata_witness :
    (select_op8 selC4Ctx selNode 0).map
        (fun r => r.2.1.get_dtype (Name.port (Name.raw "sel") 0)) = .ok 1 ∧
    (select_op8 selC4Ctx selNode 0).map
        (fun r => r.2.1.get_shape (Name.port (Name.fresh "loop" 4) 1))
      = .ok (some [99, 7]) := by
  have h := select_op8_metadata selC4Ctx selNode 0 selCondName selXName
    selYName "sel" [3, 7] rfl rfl rfl
  exact ⟨h.1, h.2.2.1 [99, 7] rfl⟩

/-- C8 witness: the canonical rewrite's emitted operator kinds and `Loop`
node wiring. -/
theorem select_op8_loop_structure_witness :
    (select_op8 selCtx selNode 0).map (fun r => r.1.map NodeP.op)
      = .ok ["Size", "Constant", "Constant", "Unsqueeze", "Loop", "Identity"] ∧
    (select_op8 selCtx selNode 0).map (fun r => (r.1.get? 4).map
        (fun n => (n.op, n.inputs, n.outputs)))
      = .ok (some ("Loop",
          [Name.port (Name.fresh "loop_gather_indices" 3) 0,
           Name.fresh "condition" 1, Name.fresh "fake_var" 2],
          [Name.port (Name.fresh "loop" 4) 0,
           Name.port (Name.fresh "loop" 4) 1])) := by
  have h := select_op8_loop_structure selCtx selNode 0 selCondName selXName
    selYName (port_name selName) [3, 2] rfl rfl rfl
  exact ⟨h.1, h.2.2.2.2.2.1⟩

/-- A context where the true operand's shape is unknown (forcing the shape
fallback) and the operands' element types differ. -/
def selC10Ctx : Ctx :=
  ⟨fun n => if n = selXName then 1 else if n = selYName then 7 else 11,
   fun n => if n = selYName then some [3, 5] else none⟩

/-- C10 witness: under the fallback context the final output is typed 1
(the true operand's type, no fallback), while the branch outputs carry the
operands' own types 1 and 7. -/
theorem select_op8_dtype_provenance_witness :
    (select_op8 selC10Ctx selNode 0).map
        (fun r => r.2.1.get_dtype (Name.port (Name.raw "sel") 0)) = .ok 1 ∧
    (select_op8 selC10Ctx selNode 0).map
        (fun r => (((r.1.get? 4).bind attrBodyGraph).bind
          (fun g => g.nodes.get? 2)).bind
          (fun n => (branchOutSigs n).map
            (fun p2 => (p2.1.map ValueInfoP.dtype, p2.2.map ValueInfoP.dtype))))
      = .ok (some ([1], [7])) := by
  have h := select_op8_dtype_provenance selC10Ctx selNode 0 selCondName
    selXName selYName "sel" [3, 5] rfl rfl rfl rfl
  exact ⟨h.1, h.2.2⟩

example : ¬ (nodesOutNames selEmitted).Nodup := by decide
example : (nodesNodeNames selEmitted).Nodup := by decide
example : (nodesOutNames selEmitted).count (Name.raw "y") = 2 := by decide

/-- Rewrite a sequence of Select operators in the same program, threading
the context and the name-factory counter through the successive rewrites
and concatenating the emitted node lists. -/
def rewriteAll (ctx : Ctx) : List NodeP → Nat → Except Err (List NodeP × Ctx × Nat)
  | [], st => .ok ([], ctx, st)
  | n :: rest, st =>
    match select_op8 ctx n st with
    | .error e => .error e
    | .ok (ns, ctx2, st2) =>
      match rewriteAll ctx2 rest st2 with
      | .error e => .error e
      | .ok (ns2, ctx3, st3) => .ok (ns ++ ns2, ctx3, st3)

/-- The node names (nested subgraphs included) one rewrite starting at
counter `st` emits, for an operator named `nm`. -/
def rwNodeNames (st : Nat) (nm : Name) : List Name :=
  [Name.fresh "Size" st, Name.fresh "condition" (st + 1),
   Name.fresh "fake_var" (st + 2), Name.fresh "loop_gather_indices" (st + 3),
   Name.fresh "loop" (st + 4), Name.fresh "Gather" (st + 5),
   Name.fresh "Squeeze" (st + 6), Name.fresh "If" (st + 13),
   Name.fresh "Gather" (st + 7), Name.fresh "Squeeze" (st + 8),
   Name.fresh "Identity" (st + 9), Name.fresh "Gather" (st + 10),
   Name.fresh "Squeeze" (st + 11), Name.fresh "Identity" (st + 12),
   Name.fresh "Identity" (st + 14), Name.fresh "Identity" (st + 15),
   Name.fresh "Identity" (st + 16), nm]

/-- The factory-generated produced output names (nested subgraphs
included, the fixed literal names `y`/`output`/`cond_output`/
`fake_var_output` excluded) of one rewrite starting at counter `st`. -/
def rwGenOutNames (st : Nat) (nm : Name) : List Name :=
  [Name.port (Name.fresh "Size" st) 0, Name.fresh "condition" (st + 1),
   Name.fresh "fake_var" (st + 2),
   Name.port (Name.fresh "loop_gather_indices" (st + 3)) 0,
   Name.port (Name.fresh "loop" (st + 4)) 0,
   Name.port (Name.fresh "loop" (st + 4)) 1,
   Name.port (Name.fresh "Gather" (st + 5)) 0,
   Name.port (Name.fresh "Squeeze" (st + 6)) 0,
   Name.port (Name.fresh "If" (st + 13)) 0,
   Name.port (Name.fresh "Gather" (st + 7)) 0,
   Name.port (Name.fresh "Squeeze" (st + 8)) 0,
   Name.port (Name.fresh "Gather" (st + 10)) 0,
   Name.port (Name.fresh "Squeeze" (st + 11)) 0,
   Name.port nm 0]

set_option maxHeartbeats 2000000 in
/-- One successful rewrite emits exactly the node names `rwNodeNames` and
the generated output names `rwGenOutNames`, advancing the counter by
17. -/
theorem select_op8_names (ctx : Ctx) (node : NodeP) (st : Nat)
    (a b c o : Name) (s : String) (ds : List Int)
    (h : node.inputs = [a, b, c]) (ho : node.outputs = [o])
    (hnm : node.name = Name.raw s)
    (hhs : get_hidden_size_best_effort ctx node = .ok ds) :
    (select_op8 ctx node st).map (fun r =>
        (nodesNodeNames r.1,
         (nodesOutNames r.1).filter (fun n => !n.isRawName), r.2.2))
      = .ok (rwNodeNames st (Name.raw s), rwGenOutNames st (Name.raw s),
             st + 17) := by
  obtain ⟨nop, nins, nouts, nname, nattrs⟩ := node
  simp only [NodeP.inputs] at h
  simp only [NodeP.outputs] at ho
  simp only [NodeP.name] at hnm
  subst h ho hnm
  simp [select_op8, create_loop_op, create_loop_body_graph, create_if_op,
    create_body_graph_for_if_branch, NodeP.inputAt, NodeP.outputAt,
    NodeP.set_attr, hhs, make_name, port_name, Except.map, NodeP.op,
    NodeP.inputs, NodeP.outputs, NodeP.name, NodeP.attrs,
    nodesNodeNames, nodeNodeNames, attrsNodeNames, attrNodeNames,
    graphNodeNames, nodesOutNames, nodeOutNames, attrsOutNames, attrOutNames,
    graphOutNames, GraphP.nodes, List.filter, Name.isRawName,
    rwNodeNames, rwGenOutNames]

set_option maxHeartbeats 1000000 in
/-- When the shape resolver fails, the whole rewrite fails with the same
error. -/
theorem select_op8_err_of_shape_err (ctx : Ctx) (node : NodeP) (st : Nat)
    (a b c : Name) (e : Err)
    (h : node.inputs = [a, b, c])
    (hhs : get_hidden_size_best_effort ctx node = .error e) :
    select_op8 ctx node st = .error e := by
  obtain ⟨nop, nins, nouts, nname, nattrs⟩ := node
  simp only [NodeP.inputs] at h
  subst h
  simp [select_op8, create_loop_op, create_loop_body_graph, create_if_op,
    create_body_graph_for_if_branch, NodeP.inputAt, NodeP.outputAt,
    NodeP.set_attr, hhs, make_name, port_name, NodeP.op, NodeP.inputs,
    NodeP.outputs, NodeP.name, NodeP.attrs]

/-- The node names of K successive rewrites, blocks of 17 counters. -/
def joinNames : List NodeP → Nat → List Name
  | [], _ => []
  | n :: rest, st => rwNodeNames st n.name ++ joinNames rest (st + 17)

/-- The generated output names of K successive rewrites. -/
def joinOuts : List NodeP → Nat → List Name
  | [], _ => []
  | n :: rest, st => rwGenOutNames st n.name ++ joinOuts rest (st + 17)

/-- Collecting node names distributes over concatenation. -/
theorem nodesNodeNames_append (xs ys : List NodeP) :
    nodesNodeNames (xs ++ ys) = nodesNodeNames xs ++ nodesNodeNames ys := by
  induction xs with
  | nil => rfl
  | cons n rest ih => simp [nodesNodeNames, ih]

/-- Collecting output names distributes over concatenation. -/
theorem nodesOutNames_append (xs ys : List NodeP) :
    nodesOutNames (xs ++ ys) = nodesOutNames xs ++ nodesOutNames ys := by
  induction xs with
  | nil => rfl
  | cons n rest ih => simp [nodesOutNames, ih]

/-- A well-formed Select node: three inputs, one declared output, a raw
(pre-existing) name. -/
def WfSelect (n : NodeP) : Prop :=
  (∃ a b c, n.inputs = [a, b, c]) ∧ (∃ o, n.outputs = [o]) ∧
  (∃ s, n.name = Name.raw s)

set_option maxHeartbeats 1000000 in
/-- Successive successful rewrites emit exactly the joined name lists. -/
theorem rewriteAll_names (nodes : List NodeP) :
    ∀ (st : Nat) (ctx : Ctx) (ns : List NodeP) (ctx2 : Ctx) (st2 : Nat),
    (∀ n ∈ nodes, WfSelect n) →
    rewriteAll ctx nodes st = .ok (ns, ctx2, st2) →
    nodesNodeNames ns = joinNames nodes st ∧
    (nodesOutNames ns).filter (fun n => !n.isRawName) = joinOuts nodes st := by
  induction nodes with
  | nil =>
    intro st ctx ns ctx2 st2 _ hk
    simp only [rewriteAll] at hk
    obtain ⟨rfl, rfl, rfl⟩ : ns = [] ∧ ctx = ctx2 ∧ st = st2 := by
      simpa using hk
    simp [joinNames, joinOuts, nodesNodeNames, nodesOutNames]
  | cons n rest ih =>
    intro st ctx ns ctx2 st2 hwf hk
    obtain ⟨⟨a, b, c, hin⟩, ⟨o, hout⟩, ⟨s, hnm⟩⟩ := hwf n (by simp)
    simp only [rewriteAll] at hk
    rcases hsel : select_op8 ctx n st with e | ⟨ns1, ctxA, stA⟩
    · rw [hsel] at hk; cases hk
    rw [hsel] at hk
    simp only [] at hk
    rcases hhs : get_hidden_size_best_effort ctx n with e | ds
    · rw [select_op8_err_of_shape_err ctx n st a b c e hin hhs] at hsel
      cases hsel
    have hmap := select_op8_names ctx n st a b c o s ds hin hout hnm hhs
    rw [hsel] at hmap
    simp only [Except.map, Except.ok.injEq, Prod.mk.injEq] at hmap
    obtain ⟨hn1, ho1, hst1⟩ := hmap
    rcases hrest : rewriteAll ctxA rest stA with e | ⟨ns2, ctxB, stB⟩
    · rw [hrest] at hk; cases hk
    rw [hrest] at hk
    simp only [Except.ok.injEq, Prod.mk.injEq] at hk
    obtain ⟨rfl, rfl, rfl⟩ := hk
    subst hst1
    obtain ⟨ihn, iho⟩ := ih (st + 17) ctxA ns2 ctxB stB
      (fun m hm => hwf m (by simp [hm])) hrest
    constructor
    · rw [nodesNodeNames_append, hn1, ihn, joinNames, hnm]
    · rw [nodesOutNames_append, List.filter_append, ho1, iho, joinOuts, hnm]

/-- The factory counter a name is built from, when it is factory-derived:
either a fresh name itself or an output port of one. -/
def baseCounter : Name → Option Nat
  | .fresh _ c => some c
  | .port (.fresh _ c) _ => some c
  | _ => none

/-- Every name of one rewrite block is factory-derived with a counter in
the block's range, or is the original operator's name. -/
theorem rwNodeNames_mem {x : Name} {st : Nat} {nm : Name}
    (hx : x ∈ rwNodeNames st nm) :
    (∃ c, baseCounter x = some c ∧ st ≤ c ∧ c < st + 17) ∨ x = nm := by
  simp only [rwNodeNames, List.mem_cons, List.not_mem_nil, or_false] at hx
  rcases hx with rfl|rfl|rfl|rfl|rfl|rfl|rfl|rfl|rfl|rfl|rfl|rfl|rfl|rfl|rfl|rfl|rfl|rfl
  all_goals first
    | (left; exact ⟨_, rfl, by omega, by omega⟩)
    | (right; rfl)

/-- Every generated output name of one block is factory-derived with a
counter in range, or the port of the original operator's name. -/
theorem rwGenOutNames_mem {x : Name} {st : Nat} {nm : Name}
    (hx : x ∈ rwGenOutNames st nm) :
    (∃ c, baseCounter x = some c ∧ st ≤ c ∧ c < st + 17) ∨
      x = Name.port nm 0 := by
  simp only [rwGenOutNames, List.mem_cons, List.not_mem_nil, or_false] at hx
  rcases hx with rfl|rfl|rfl|rfl|rfl|rfl|rfl|rfl|rfl|rfl|rfl|rfl|rfl|rfl
  all_goals first
    | (left; exact ⟨_, rfl, by omega, by omega⟩)
    | (right; rfl)

/-- Node names of the joined blocks have counters at least `st` or are
original operator names. -/
theorem joinNames_mem {x : Name} (nodes : List NodeP) :
    ∀ st, x ∈ joinNames nodes st →
       (∃ c, baseCounter x = some c ∧ st ≤ c) ∨ ∃ n ∈ nodes, x = n.name := by
  induction nodes with
  | nil => intro st hx; simp [joinNames] at hx
  | cons n rest ih =>
    intro st hx
    rw [joinNames, List.mem_append] at hx
    rcases hx with hx | hx
    · rcases rwNodeNames_mem hx with ⟨c2, hc, hle, _⟩ | rfl
      · exact .inl ⟨c2, hc, hle⟩
      · exact .inr ⟨n, by simp⟩
    · rcases ih (st + 17) hx with ⟨c2, hc, hle⟩ | ⟨m, hm, rfl⟩
      · exact .inl ⟨c2, hc, by omega⟩
      · exact .inr ⟨m, by simp [hm]⟩

/-- Output names of the joined blocks have counters at least `st` or are
ports of original operator names. -/
theorem joinOuts_mem {x : Name} (nodes : List NodeP) :
    ∀ st, x ∈ joinOuts nodes st →
      (∃ c, baseCounter x = some c ∧ st ≤ c) ∨
        ∃ n ∈ nodes, x = Name.port n.name 0 := by
  induction nodes with
  | nil => intro st hx; simp [joinOuts] at hx
  | cons n rest ih =>
    intro st hx
    rw [joinOuts, List.mem_append] at hx
    rcases hx with hx | hx
    · rcases rwGenOutNames_mem hx with ⟨c2, hc, hle, _⟩ | rfl
      · exact .inl ⟨c2, hc, hle⟩
      · exact .inr ⟨n, by simp⟩
    · rcases ih (st + 17) hx with ⟨c2, hc, hle⟩ | ⟨m, hm, rfl⟩
      · exact .inl ⟨c2, hc, by omega⟩
      · exact .inr ⟨m, by simp [hm]⟩

set_option maxHeartbeats 1000000 in
/-- One rewrite block's node names are pairwise distinct. -/
theorem rwNodeNames_nodup (st : Nat) (s : String) :
    (rwNodeNames st (Name.raw s)).Nodup := by
  simp [rwNodeNames]

set_option maxHeartbeats 1000000 in
/-- One rewrite block's generated output names are pairwise distinct. -/
theorem rwGenOutNames_nodup (st : Nat) (s : String) :
    (rwGenOutNames st (Name.raw s)).Nodup := by
  simp [rwGenOutNames]

/-- Across successive blocks with distinct raw operator names, all node
names are pairwise distinct. -/
theorem joinNames_nodup (nodes : List NodeP) :
    ∀ st, (∀ n ∈ nodes, ∃ s, n.name = Name.raw s) →
    (nodes.map NodeP.name).Nodup → (joinNames nodes st).Nodup := by
  induction nodes with
  | nil => intro st _ _; simp [joinNames]
  | cons n rest ih =>
    intro st hraw hnd
    rw [joinNames, List.nodup_append]
    obtain ⟨s, hs⟩ := hraw n (by simp)
    simp only [List.map_cons, List.nodup_cons] at hnd
    refine ⟨hs ▸ rwNodeNames_nodup st s, ih (st + 17)
      (fun m hm => hraw m (by simp [hm])) hnd.2, ?_⟩
    intro x hx1 hx2
    rcases rwNodeNames_mem hx1 with ⟨c1, hc1, _, hlt1⟩ | rfl
    · rcases joinNames_mem rest (st + 17) hx2 with ⟨c2, hc2, hle2⟩ | ⟨m, hm, rfl⟩
      · rw [hc1] at hc2
        cases hc2
        omega
      · obtain ⟨s2, hs2⟩ := hraw m (by simp [hm])
        rw [hs2] at hc1
        cases hc1
    · rcases joinNames_mem rest (st + 17) hx2 with ⟨c2, hc2, _⟩ | ⟨m, hm, heq⟩
      · rw [hs] at hc2
        cases hc2
      · exact hnd.1 (by rw [heq]; exact List.mem_map_of_mem NodeP.name hm)

/-- Across successive blocks with distinct raw operator names, all
generated output names are pairwise distinct. -/
theorem joinOuts_nodup (nodes : List NodeP) :
    ∀ st, (∀ n ∈ nodes, ∃ s, n.name = Name.raw s) →
    (nodes.map NodeP.name).Nodup → (joinOuts nodes st).Nodup := by
  induction nodes with
  | nil => intro st _ _; simp [joinOuts]
  | cons n rest ih =>
    intro st hraw hnd
    rw [joinOuts, List.nodup_append]
    obtain ⟨s, hs⟩ := hraw n (by simp)
    simp only [List.map_cons, List.nodup_cons] at hnd
    refine ⟨hs ▸ rwGenOutNames_nodup st s, ih (st + 17)
      (fun m hm => hraw m (by simp [hm])) hnd.2, ?_⟩
    intro x hx1 hx2
    rcases rwGenOutNames_mem hx1 with ⟨c1, hc1, _, hlt1⟩ | rfl
    · rcases joinOuts_mem rest (st + 17) hx2 with ⟨c2, hc2, hle2⟩ | ⟨m, hm, rfl⟩
      · rw [hc1] at hc2
        cases hc2
        omega
      · obtain ⟨s2, hs2⟩ := hraw m (by simp [hm])
        rw [hs2] at hc1
        cases hc1
    · rcases joinOuts_mem rest (st + 17) hx2 with ⟨c2, hc2, _⟩ | ⟨m, hm, heq⟩
      · rw [hs] at hc2
        cases hc2
      · have hnm2 : n.name = m.name := by injection heq
        exact hnd.1 (by rw [hnm2]; exact List.mem_map_of_mem NodeP.name hm)

/-- Whether a rewrite result is a success. -/
def exceptOk : Except Err (List NodeP × Ctx × Nat) → Bool
  | .ok _ => true
  | .error _ => false

/-- C9 (amended): after rewriting K well-formed Select operators with
pairwise distinct (raw) names in the same program, all emitted node names
and all factory-generated produced output names — nested iteration-body
and branch subgraphs included — are pairwise distinct; only the fixed
literal subgraph output names (`y`, `output`, `cond_output`,
`fake_var_output`), which recur in every nested subgraph, repeat. -/
theorem rewrite_names_unique (ctx : Ctx) (nodes : List NodeP) (st : Nat)
    (ns : List NodeP) (ctx2 : Ctx) (st2 : Nat)
    (hwf : ∀ n ∈ nodes, WfSelect n)
    (hnd : (nodes.map NodeP.name).Nodup)
    (hok : rewriteAll ctx nodes st = .ok (ns, ctx2, st2)) :
    (nodesNodeNames ns).Nodup ∧
    ((nodesOutNames ns).filter (fun n => !n.isRawName)).Nodup := by
  obtain ⟨hn, ho⟩ := rewriteAll_names nodes st ctx ns ctx2 st2 hwf hok
  have hraw : ∀ n ∈ nodes, ∃ s, n.name = Name.raw s :=
    fun n hn2 => (hwf n hn2).2.2
  exact ⟨hn ▸ joinNames_nodup nodes st hraw hnd,
         ho ▸ joinOuts_nodup nodes st hraw hnd⟩

/-- A second Select node, named `sel2`, for a two-operator program. -/
def selNode2 : NodeP :=
  NodeP.mk "Select" [selCondName, selXName, selYName]
    [port_name (Name.raw "sel2")] (Name.raw "sel2") []

/-- C9 witness: rewriting the two-operator program succeeds and all node
names and generated output names are pairwise distinct. -/
theorem rewrite_names_unique_witness :
    match rewriteAll selCtx [selNode, selNode2] 0 with
    | .ok (ns, _, _) =>
        (nodesNodeNames ns).Nodup ∧
        ((nodesOutNames ns).filter (fun n => !n.isRawName)).Nodup
    | .error _ => False := by
  have hOk : exceptOk (rewriteAll selCtx [selNode, selNode2] 0) = true := by
    decide
  rcases hE : rewriteAll selCtx [selNode, selNode2] 0 with e | ⟨ns, c2, s2⟩
  · rw [hE] at hOk
    exact absurd hOk (by simp [exceptOk])
  · simp only []
    refine rewrite_names_unique selCtx [selNode, selNode2] 0 ns c2 s2 ?_
      (by decide) hE
    intro n hn
    simp only [List.mem_cons, List.not_mem_nil, or_false] at hn
    rcases hn with rfl | rfl
    · exact ⟨⟨_, _, _, rfl⟩, ⟨_, rfl⟩, ⟨"sel", rfl⟩⟩
    · exact ⟨⟨_, _, _, rfl⟩, ⟨_, rfl⟩, ⟨"sel2", rfl⟩⟩

/-- C9 counterexample: already a single rewrite emits the produced output
name `y` in both branch subgraphs (and the fixed body output names once
each), so the full list of produced output names is not pairwise
distinct. -/
theorem rewrite_out_names_duplicate :
    select_op8 selCtx selNode 0 = .ok (selEmitted, selCtxOut, 17) ∧
    ¬ (nodesOutNames selEmitted).Nodup :=
  ⟨select_op8_canonical, by decide⟩
